import Mathlib

/-!
Verification development for the `subconverter-rs` front-end binary
(`src/main.rs`): the batch "generate" driver, the command-line dispatch
logic, and — modelled from the design spec where the library code is not
part of this tree — the node post-processor, the conversion orchestrator
and the target renderer.

Strings are Lean `String`s (lists of characters); the HTTP conversion
endpoint and the filesystem are modelled as explicit parameters: an
oracle `conv : String → Option String` mapping a `/sub` query string to
a successful response body (`none` for a non-success status), and a
write oracle `wr : String → String → Bool` telling whether
`fs::write(path, contents)` succeeds — the `?` on that call propagates
a write error out of `handle_generate_mode`, aborting the batch loop.
-/

namespace Subconverter

/-! ## Batch sections (generate.ini)

Modelled from the spec: the batch descriptor is "a named list of entries"
(`generate.ini` sections read through `IniReader`, whose source is outside
this tree).  A section has a name, a flag telling whether `enter_section`
succeeds, and its key/value items; `get_current` returns the first value
stored under a key, or the empty string when the key is absent. -/
structure GenSection where
  name : String
  enterOk : Bool
  entries : List (String × String)
deriving DecidableEq

/-- The `IniReader.get_current` lookup: first value under `key` in the current
section, `""` when absent. -/
def getCurrent (s : GenSection) (key : String) : String :=
  match s.entries.find? (fun e => e.1 == key) with
  | some e => e.2
  | none => ""

/-! ## Percent-encoding (`urlencoding::encode`)

`urlencoding::encode` keeps ASCII alphanumerics and `-`, `_`, `.`, `~`
and replaces every other byte of the UTF-8 encoding by `%XX` with
uppercase hexadecimal digits. -/

/-- Characters `urlencoding::encode` passes through unchanged. -/
def isUnreserved (c : Char) : Bool :=
  ('a' ≤ c && c ≤ 'z') || ('A' ≤ c && c ≤ 'Z') || ('0' ≤ c && c ≤ '9') ||
    c == '-' || c == '_' || c == '.' || c == '~'

/-- The uppercase hexadecimal digits. -/
def hexDigits : List Char :=
  ['0', '1', '2', '3', '4', '5', '6', '7', '8', '9', 'A', 'B', 'C', 'D', 'E', 'F']

/-- Hexadecimal digit for a value below 16. -/
def hexChar (n : Nat) : Char := hexDigits.getD n 'F'

/-- UTF-8 encoding of a unicode scalar value, as a list of byte values. -/
def utf8Bytes (n : Nat) : List Nat :=
  if n < 0x80 then [n]
  else if n < 0x800 then [0xC0 + n / 64, 0x80 + n % 64]
  else if n < 0x10000 then [0xE0 + n / 4096, 0x80 + n / 64 % 64, 0x80 + n % 64]
  else [0xF0 + n / 262144, 0x80 + n / 4096 % 64, 0x80 + n / 64 % 64, 0x80 + n % 64]

/-- Percent escape `%XX` of one byte. -/
def encByte (b : Nat) : List Char := ['%', hexChar (b / 16 % 16), hexChar (b % 16)]

/-- Percent-encoding of one character. -/
def encChar (c : Char) : List Char :=
  if isUnreserved c then [c] else (utf8Bytes c.toNat).foldr (fun b r => encByte b ++ r) []

/-- Percent-encoding of a character list. -/
def urlencodeL : List Char → List Char
  | [] => []
  | c :: cs => encChar c ++ urlencodeL cs

/-- The `urlencoding::encode` function. -/
def urlencode (s : String) : String := String.mk (urlencodeL s.data)

/-! ## The `/sub` query string built by `handle_generate_mode` -/

/-- The query string `handle_generate_mode` builds for a section:
`target` and `url` are always present and percent-encoded; `ver`,
`emoji` and `list` are appended verbatim when non-empty; `include` and
`exclude` are appended percent-encoded when non-empty. -/
def buildQuery (s : GenSection) : String :=
  let q := "target=" ++ urlencode (getCurrent s "target") ++ "&url=" ++
    urlencode (getCurrent s "url")
  let q := if getCurrent s "ver" = "" then q else q ++ "&ver=" ++ getCurrent s "ver"
  let q := if getCurrent s "emoji" = "" then q else q ++ "&emoji=" ++ getCurrent s "emoji"
  let q := if getCurrent s "list" = "" then q else q ++ "&list=" ++ getCurrent s "list"
  let q := if getCurrent s "include" = "" then q
    else q ++ "&include=" ++ urlencode (getCurrent s "include")
  let q := if getCurrent s "exclude" = "" then q
    else q ++ "&exclude=" ++ urlencode (getCurrent s "exclude")
  q

/-! ## Query-string structure

An analysis-side parser giving the parameter structure a query string is
read back with: split on `&`, then split each piece at its first `=`. -/

/-- Split a character list on `&`. -/
def splitAmp : List Char → List (List Char)
  | [] => [[]]
  | c :: cs =>
    if c = '&' then [] :: splitAmp cs
    else
      match splitAmp cs with
      | [] => [[c]]
      | h :: t => (c :: h) :: t

/-- Split at the first `=`, returning (key, value); the value is empty
when no `=` occurs. -/
def splitEq1 : List Char → List Char × List Char
  | [] => ([], [])
  | c :: cs =>
    if c = '=' then ([], cs)
    else
      let p := splitEq1 cs
      (c :: p.1, p.2)

/-- Parameter list of a query string. -/
def parseQuery (s : String) : List (String × String) :=
  (splitAmp s.data).map (fun piece =>
    let p := splitEq1 piece
    (String.mk p.1, String.mk p.2))

/-! ## Batch driver (`handle_generate_mode`) -/

/-- What processing one section does, following the branch structure of
the loop body in `handle_generate_mode`. -/
inductive SectionOutcome where
  /-- empty `section_name` → `continue`. -/
  | skippedEmptyName : SectionOutcome
  /-- the `enter_section` call failed → logged, `continue`. -/
  | enterFailed : SectionOutcome
  /-- one of `path`, `url`, `target` empty → logged, `continue`. -/
  | skippedMissing : SectionOutcome
  /-- the conversion request returned a non-success status → logged,
  `continue`. -/
  | convFailed : SectionOutcome
  /-- success: the response body was written to `path`. -/
  | wrote (path body : String) : SectionOutcome
  /-- the conversion succeeded but `fs::write(&path, body)?` returned an
  error: `handle_generate_mode` returns `Err`, abandoning the remaining
  sections. -/
  | writeFailed (path body : String) : SectionOutcome
deriving DecidableEq

/-- The loop body of `handle_generate_mode` for one section, with the
HTTP conversion endpoint abstracted as `conv` (query string ↦ successful
response body, `none` for a non-success status) and the filesystem as
`wr` (whether `fs::write(path, contents)` succeeds). -/
def processSection (conv : String → Option String) (wr : String → String → Bool)
    (s : GenSection) : SectionOutcome :=
  if s.name = "" then .skippedEmptyName
  else if !s.enterOk then .enterFailed
  else if getCurrent s "path" = "" ∨ getCurrent s "url" = "" ∨ getCurrent s "target" = ""
    then .skippedMissing
  else
    match conv (buildQuery s) with
    | some body =>
      if wr (getCurrent s "path") body then .wrote (getCurrent s "path") body
      else .writeFailed (getCurrent s "path") body
    | none => .convFailed

/-- Whether an outcome aborts the batch loop: only a failed file write
does — the `?` on `fs::write` propagates its error out of
`handle_generate_mode`, while every other failure branch ends in
`continue`. -/
def aborts : SectionOutcome → Bool
  | .writeFailed _ _ => true
  | _ => false

/-- The `for section_name in sections_to_process` loop: the trace of the
sections actually processed.  Every failure branch ends in `continue`,
but a failed `fs::write` propagates with `?`, so the trace stops at a
write failure and the remaining sections are never reached. -/
def generateTrace (conv : String → Option String) (wr : String → String → Bool) :
    List GenSection → List SectionOutcome
  | [] => []
  | s :: rest =>
    let o := processSection conv wr s
    if aborts o then [o] else o :: generateTrace conv wr rest

/-- The driver `handle_generate_mode`: filter the sections when `--artifact` is
given, fail when the filter selects nothing, otherwise process the
selected sections, returning `Err` when a file write fails. -/
def handleGenerateMode (conv : String → Option String) (wr : String → String → Bool)
    (sections : List GenSection) (artifact : Option String) :
    Except String (List SectionOutcome) :=
  match artifact with
  | some a =>
    let toProcess := sections.filter (fun s => s.name == a)
    if toProcess.isEmpty then .error ("Artifact '" ++ a ++ "' not found")
    else if (generateTrace conv wr toProcess).any aborts then .error "write error"
    else .ok (generateTrace conv wr toProcess)
  | none =>
    if (generateTrace conv wr sections).any aborts then .error "write error"
    else .ok (generateTrace conv wr sections)

/-- Files produced while processing one section: one file on a
successful write, none otherwise. -/
def writesOf : SectionOutcome → List (String × String)
  | .wrote path body => [(path, body)]
  | _ => []

/-- Non-aborting failure outcomes of one entry: the conversion request
returned a non-success status, or the section could not even be
entered; both are logged and the loop continues. -/
def entryFailed : SectionOutcome → Bool
  | .convFailed => true
  | .enterFailed => true
  | _ => false

/-! ## Command-line dispatch (`main`) -/

/-- The parsed command-line arguments (`Args` in `main.rs`). -/
structure Args where
  config : Option String
  address : Option String
  generate : Bool
  artifact : Option String
  port : Option Nat
  url : Option String
  output : Option String
deriving DecidableEq

/-- Observable steps of `main`'s dispatch logic. -/
inductive MainEvent where
  /-- the "--url and --output must be used together" error message. -/
  | printErrUsage : MainEvent
  /-- process exit with status `n`. -/
  | exitCode (n : Nat) : MainEvent
  /-- entry into `handle_generate_mode(args.artifact)`. -/
  | enterGenerate (artifact : Option String) : MainEvent
  /-- the `init_settings(args.config...)` call. -/
  | settingsInit (config : String) : MainEvent
  /-- direct `--url`/`--output` conversion. -/
  | directConvert (url output : String) : MainEvent
  /-- fall through to starting the web server. -/
  | startServer : MainEvent
deriving DecidableEq

/-- The dispatch sequence of `main`: the `--url`/`--output` pairing check
runs first, then the `--generate` check, then `init_settings`, then
either direct conversion or the server. -/
def mainTrace (args : Args) : List MainEvent :=
  if args.url.isSome != args.output.isSome then [.printErrUsage, .exitCode 1]
  else if args.generate then [.enterGenerate args.artifact]
  else
    .settingsInit (args.config.getD "") ::
      match args.url, args.output with
      | some u, some o => [.directConvert u o]
      | _, _ => [.startServer]

/-! ## Canonical node model

Modelled from the spec: a Node is one proxy endpoint with a protocol
kind, a display name, host, port, and the protocol's connection-identity
fields; two nodes are duplicates when kind, host, port and identity all
match, ignoring the display name.  (The node model lives in the library
crate, outside this tree.) -/
structure Node where
  kind : String
  name : String
  host : String
  port : Nat
  identity : String
deriving DecidableEq

/-- The duplicate-identity key of a node: everything but the display
name. -/
def nodeKey (n : Node) : String × String × Nat × String :=
  (n.kind, n.host, n.port, n.identity)

/-! ## Node post-processor

Modelled from the spec: `process(nodes, options)` applies, in order,
include filter, exclude filter, dedup (first occurrence kept), rename
(first matching rule wins, full-name replacement), and emoji tagging
(first matching table row wins, symbol prepended).  Patterns are the
spec's plain substring/keyword patterns, matched case-insensitively
against the display name. -/

/-- Lower-case a character list. -/
def lowerL (l : List Char) : List Char := l.map Char.toLower

/-- Whether `pat` is a prefix of `s`. -/
def listIsPrefix : List Char → List Char → Bool
  | [], _ => true
  | _ :: _, [] => false
  | p :: ps, c :: cs => p == c && listIsPrefix ps cs

/-- Whether `pat` occurs inside `s`. -/
def listIsInfix (pat : List Char) : List Char → Bool
  | [] => listIsPrefix pat []
  | c :: cs => listIsPrefix pat (c :: cs) || listIsInfix pat cs

/-- Case-insensitive keyword match of a pattern against a display name. -/
def matchKw (pat name : String) : Bool :=
  listIsInfix (lowerL pat.data) (lowerL name.data)

/-- Post-processor options: include/exclude keyword, rename rules,
emoji switch and emoji table. -/
structure PPOptions where
  includePat : String
  excludePat : String
  renameRules : List (String × String)
  emojiOn : Bool
  emojiTable : List (String × String)
deriving DecidableEq

/-- Step (1): drop nodes whose display name fails the positive pattern,
when one is configured. -/
def includeStage (o : PPOptions) (ns : List Node) : List Node :=
  if o.includePat = "" then ns else ns.filter (fun n => matchKw o.includePat n.name)

/-- Step (2): drop nodes whose display name matches the negative
pattern. -/
def excludeStage (o : PPOptions) (ns : List Node) : List Node :=
  if o.excludePat = "" then ns else ns.filter (fun n => !matchKw o.excludePat n.name)

/-- Step (3): keep the first occurrence of each identity key, drop later
duplicates. -/
def dedupAux (seen : List (String × String × Nat × String)) : List Node → List Node
  | [] => []
  | n :: rest =>
    if nodeKey n ∈ seen then dedupAux seen rest
    else n :: dedupAux (nodeKey n :: seen) rest

/-- Dedup in original decode order. -/
def dedup (ns : List Node) : List Node := dedupAux [] ns

/-- Step (4): first matching rename rule replaces the display name with
the rule's template; unmatched names pass through. -/
def renameNode (rules : List (String × String)) (n : Node) : Node :=
  match rules.find? (fun r => matchKw r.1 n.name) with
  | some r => { n with name := r.2 }
  | none => n

/-- Rename stage over a node list. -/
def renameStage (o : PPOptions) (ns : List Node) : List Node :=
  ns.map (renameNode o.renameRules)

/-- Step (5): prepend the symbol of the first matching emoji-table row;
at most one symbol per node per run. -/
def emojiNode (table : List (String × String)) (n : Node) : Node :=
  match table.find? (fun r => matchKw r.1 n.name) with
  | some r => { n with name := r.2 ++ n.name }
  | none => n

/-- Emoji stage over a node list, when enabled. -/
def emojiStage (o : PPOptions) (ns : List Node) : List Node :=
  if o.emojiOn then ns.map (emojiNode o.emojiTable) else ns

/-- The post-processor pipeline: include → exclude → dedup → rename →
emoji. -/
def postProcess (o : PPOptions) (ns : List Node) : List Node :=
  emojiStage o (renameStage o (dedup (excludeStage o (includeStage o ns))))

/-! ## Target renderer

Modelled from the spec: `render(nodes, groups, options) -> document
bytes`, a pure function emitting boilerplate from the options, one
stanza per node and one stanza per group.  (The renderers live in the
library crate, outside this tree.) -/

/-- A proxy group: name, kind, ordered member list. -/
structure ProxyGroup where
  name : String
  kind : String
  members : List String
deriving DecidableEq

/-- Render-time options: the target dialect id and the dialect-version
hint (the hint affects boilerplate only). -/
structure RenderOptions where
  targetDialect : String
  versionHint : String
deriving DecidableEq

/-- One node stanza. -/
def renderNodeLine (n : Node) : String :=
  n.kind ++ " " ++ n.name ++ " = " ++ n.host ++ ":" ++ toString n.port

/-- One group stanza. -/
def renderGroupLine (g : ProxyGroup) : String :=
  g.name ++ " : " ++ g.kind ++ " -> " ++ String.intercalate ", " g.members

/-- The renderer: boilerplate from the options, then the node stanzas,
then the group stanzas. -/
def render (nodes : List Node) (groups : List ProxyGroup) (o : RenderOptions) : String :=
  "# target=" ++ o.targetDialect ++ " ver=" ++ o.versionHint ++ "\n" ++
    String.intercalate "\n" (nodes.map renderNodeLine) ++ "\n" ++
    String.intercalate "\n" (groups.map renderGroupLine)

/-! ## Conversion orchestrator

Modelled from the spec: `convert(job)` resolves the sources, merges the
decoded nodes preserving source order, post-processes, and renders;
it fails fatally with a SourceError when all sources are unreachable or
empty, and with EmptyResult when zero nodes remain after
filtering/dedup.  (The orchestrator lives in the library crate, outside
this tree.) -/

/-- The fatal error taxonomy of a conversion job. -/
inductive ConversionError where
  /-- all sources unreachable or empty — nothing fetched. -/
  | SourceError (msg : String)
  /-- malformed user-supplied rule. -/
  | ConfigError (msg : String)
  /-- zero nodes after filtering/dedup — everything filtered out. -/
  | EmptyResult
deriving DecidableEq

/-- The orchestrator.  A source resolves either to its decoded node list
or to `none` when unreachable. -/
def convertJob (sources : List (Option (List Node))) (o : PPOptions)
    (groups : List ProxyGroup) (ropts : RenderOptions) : Except ConversionError String :=
  let merged := (sources.filterMap id).flatten
  if merged = [] then .error (.SourceError "all sources unreachable or empty")
  else
    let processed := postProcess o merged
    if processed = [] then .error .EmptyResult
    else .ok (render processed groups ropts)

/-- Forwarding of one optional query parameter: present exactly when the
section's raw value is non-empty. -/
def optParam (raw key val : String) : List (String × String) :=
  if raw = "" then [] else [(key, val)]

/-- The parameters `handle_generate_mode` forwards for a section, in
query order. -/
def forwardedParams (s : GenSection) : List (String × String) :=
  [("target", urlencode (getCurrent s "target")), ("url", urlencode (getCurrent s "url"))] ++
    optParam (getCurrent s "ver") "ver" (getCurrent s "ver") ++
    optParam (getCurrent s "emoji") "emoji" (getCurrent s "emoji") ++
    optParam (getCurrent s "list") "list" (getCurrent s "list") ++
    optParam (getCurrent s "include") "include" (urlencode (getCurrent s "include")) ++
    optParam (getCurrent s "exclude") "exclude" (urlencode (getCurrent s "exclude"))

/-- Serialize a parameter list back into a query string (char level). -/
def joinParams : List (String × String) → List Char
  | [] => []
  | [p] => p.1.data ++ '=' :: p.2.data
  | p :: rest => p.1.data ++ '=' :: p.2.data ++ '&' :: joinParams rest

/-! # Theorems -/

/-! ## Helper lemmas -/

theorem not_aborts_of_entryFailed {o : SectionOutcome} (h : entryFailed o = true) :
    aborts o = false := by
  cases o <;> simp_all [entryFailed, aborts]

theorem generateTrace_append (conv : String → Option String) (wr : String → String → Bool)
    (l1 l2 : List GenSection)
    (h : ∀ p ∈ l1, aborts (processSection conv wr p) = false) :
    generateTrace conv wr (l1 ++ l2) =
      generateTrace conv wr l1 ++ generateTrace conv wr l2 := by
  induction l1 with
  | nil => rfl
  | cons s rest ih =>
    have hs : aborts (processSection conv wr s) = false := h s (List.mem_cons_self s rest)
    have ih' := ih (fun p hp => h p (List.mem_cons_of_mem s hp))
    simp [generateTrace, hs, ih']

/-! ## C1: a failing conversion and the batch loop -/

/-- Counterexample for C1: entry `a`'s conversion request fails and is
duly skipped, but a later entry `b`'s `fs::write` failure propagates
through the `?` operator and aborts the loop, so entry `c` is never
processed — the trace of three sections has only two outcomes and the
driver returns an error. -/
theorem c1_counterexample :
    entryFailed (processSection
      (fun q => if q = buildQuery ⟨"a", true, [("path", "p1"), ("url", "u1"), ("target", "t")]⟩
        then none else some "DOC")
      (fun _ _ => false)
      ⟨"a", true, [("path", "p1"), ("url", "u1"), ("target", "t")]⟩) = true ∧
    generateTrace
      (fun q => if q = buildQuery ⟨"a", true, [("path", "p1"), ("url", "u1"), ("target", "t")]⟩
        then none else some "DOC")
      (fun _ _ => false)
      [⟨"a", true, [("path", "p1"), ("url", "u1"), ("target", "t")]⟩,
        ⟨"b", true, [("path", "p2"), ("url", "u2"), ("target", "t")]⟩,
        ⟨"c", true, [("path", "p3"), ("url", "u3"), ("target", "t")]⟩] =
      [.convFailed, .writeFailed "p2" "DOC"] ∧
    handleGenerateMode
      (fun q => if q = buildQuery ⟨"a", true, [("path", "p1"), ("url", "u1"), ("target", "t")]⟩
        then none else some "DOC")
      (fun _ _ => false)
      [⟨"a", true, [("path", "p1"), ("url", "u1"), ("target", "t")]⟩,
        ⟨"b", true, [("path", "p2"), ("url", "u2"), ("target", "t")]⟩,
        ⟨"c", true, [("path", "p3"), ("url", "u3"), ("target", "t")]⟩] none =
      .error "write error" :=
  ⟨by decide, by decide, by rfl⟩

/-- C1 (amended): an entry whose conversion request returns a
non-success status (or whose section cannot be entered) never aborts
the batch itself: whenever the loop reaches such an entry (no earlier
write failure), the remaining entries are processed exactly as they
would otherwise be.  Only a failed `fs::write` of a later successful
entry can cut the batch short. -/
theorem c1_conversion_failure_does_not_abort (conv : String → Option String)
    (wr : String → String → Bool) (pre : List GenSection) (s : GenSection)
    (post : List GenSection)
    (hpre : ∀ p ∈ pre, aborts (processSection conv wr p) = false)
    (hfail : entryFailed (processSection conv wr s) = true) :
    generateTrace conv wr (pre ++ s :: post) =
      generateTrace conv wr pre ++ processSection conv wr s :: generateTrace conv wr post := by
  have hs : aborts (processSection conv wr s) = false := not_aborts_of_entryFailed hfail
  rw [generateTrace_append conv wr pre (s :: post) hpre]
  simp [generateTrace, hs]

/-- Witness for C1 (amended) at a concrete batch: the middle entry's
conversion returns a non-success status, both neighbours are still
processed. -/
theorem c1_witness :
    generateTrace (fun _ => none) (fun _ _ => true)
      ([⟨"a", true, []⟩] ++ ⟨"b", true, [("path", "pb"), ("url", "ub"), ("target", "tb")]⟩ ::
        [⟨"c", true, []⟩]) =
      [.skippedMissing, .convFailed, .skippedMissing] :=
  (c1_conversion_failure_does_not_abort (fun _ => none) (fun _ _ => true) [⟨"a", true, []⟩]
      ⟨"b", true, [("path", "pb"), ("url", "ub"), ("target", "tb")]⟩ [⟨"c", true, []⟩]
      (by decide) (by decide)).trans (by decide)

/-! ## C3: a successful entry produces exactly its response body -/

/-- C3: for every batch entry with non-empty `path`, `url` and `target`
whose conversion succeeds and whose file write goes through, processing
the entry writes exactly one file, at the entry's `path`, whose
contents are exactly the response body. -/
theorem c3_success_writes_exactly_response (conv : String → Option String)
    (wr : String → String → Bool) (s : GenSection)
    (body : String) (hname : ¬s.name = "") (henter : s.enterOk = true)
    (hpath : ¬getCurrent s "path" = "") (hurl : ¬getCurrent s "url" = "")
    (htarget : ¬getCurrent s "target" = "") (hconv : conv (buildQuery s) = some body)
    (hwrite : wr (getCurrent s "path") body = true) :
    processSection conv wr s = .wrote (getCurrent s "path") body ∧
    writesOf (processSection conv wr s) = [(getCurrent s "path", body)] := by
  have h : processSection conv wr s = .wrote (getCurrent s "path") body := by
    simp [processSection, hname, henter, hpath, hurl, htarget, hconv, hwrite]
  exact ⟨h, by simp [h, writesOf]⟩

/-- Witness for C3 at a concrete entry and a conversion returning the
document `DOC`. -/
theorem c3_witness :
    writesOf (processSection (fun _ => some "DOC") (fun _ _ => true)
      ⟨"s", true, [("path", "out.yaml"), ("url", "http://u"), ("target", "clash")]⟩) =
      [("out.yaml", "DOC")] :=
  (c3_success_writes_exactly_response (fun _ => some "DOC") (fun _ _ => true)
    ⟨"s", true, [("path", "out.yaml"), ("url", "http://u"), ("target", "clash")]⟩ "DOC"
    (by decide) (by decide) (by decide) (by decide) (by decide) rfl rfl).2

/-! ## C4: entries with missing required parameters are skipped -/

/-- C4: every batch entry missing one of `path`, `url`, `target` is
skipped — no conversion attempted, no file written — and the remaining
entries are processed as usual. -/
theorem c4_missing_params_skipped (conv : String → Option String)
    (wr : String → String → Bool) (s : GenSection)
    (rest : List GenSection) (hname : ¬s.name = "") (henter : s.enterOk = true)
    (hmiss : getCurrent s "path" = "" ∨ getCurrent s "url" = "" ∨ getCurrent s "target" = "") :
    processSection conv wr s = .skippedMissing ∧
    writesOf (processSection conv wr s) = [] ∧
    generateTrace conv wr (s :: rest) = .skippedMissing :: generateTrace conv wr rest := by
  have h : processSection conv wr s = .skippedMissing := by
    simp [processSection, hname, henter, hmiss]
  exact ⟨h, by simp [h, writesOf], by simp [generateTrace, h, aborts]⟩

/-- Witness for C4 at a concrete entry missing `url` and `target`. -/
theorem c4_witness :
    processSection (fun _ => some "DOC") (fun _ _ => true)
      ⟨"s", true, [("path", "out.yaml")]⟩ = .skippedMissing ∧
    writesOf (processSection (fun _ => some "DOC") (fun _ _ => true)
      ⟨"s", true, [("path", "out.yaml")]⟩) = [] ∧
    generateTrace (fun _ => some "DOC") (fun _ _ => true) [⟨"s", true, [("path", "out.yaml")]⟩] =
      [.skippedMissing] :=
  c4_missing_params_skipped (fun _ => some "DOC") (fun _ _ => true)
    ⟨"s", true, [("path", "out.yaml")]⟩ []
    (by decide) (by decide) (by decide)

/-! ## C5: rendering is deterministic -/

/-- C5: rendering is deterministic — two render invocations on identical
nodes, groups and options produce byte-identical documents. -/
theorem c5_render_deterministic (n₁ n₂ : List Node) (g₁ g₂ : List ProxyGroup)
    (o₁ o₂ : RenderOptions) (hn : n₁ = n₂) (hg : g₁ = g₂) (ho : o₁ = o₂) :
    render n₁ g₁ o₁ = render n₂ g₂ o₂ := by
  rw [hn, hg, ho]

/-- Witness for C5 at a concrete node, group and option set. -/
theorem c5_witness :
    render [⟨"ss", "US-1", "h", 443, "pw"⟩] [⟨"auto", "url-test", ["US-1"]⟩] ⟨"clash", "4"⟩ =
      render [⟨"ss", "US-1", "h", 443, "pw"⟩] [⟨"auto", "url-test", ["US-1"]⟩] ⟨"clash", "4"⟩ :=
  c5_render_deterministic _ _ _ _ _ _ rfl rfl rfl

/-! ## C7: empty node list after filtering fails with EmptyResult -/

/-- C7: a job whose merged node list is non-empty but empties out under
filtering/dedup fails with `EmptyResult` — no rendered document, not an
empty document — and `EmptyResult` is distinct from every
`SourceError`. -/
theorem c7_empty_after_filtering (sources : List (Option (List Node))) (o : PPOptions)
    (groups : List ProxyGroup) (ropts : RenderOptions)
    (hfetched : ¬(sources.filterMap id).flatten = [])
    (hfiltered : postProcess o (sources.filterMap id).flatten = []) :
    convertJob sources o groups ropts = .error .EmptyResult ∧
    (∀ doc, ¬convertJob sources o groups ropts = .ok doc) ∧
    (∀ msg, ¬(ConversionError.EmptyResult = ConversionError.SourceError msg)) := by
  have h : convertJob sources o groups ropts = .error .EmptyResult := by
    simp [convertJob, hfetched, hfiltered]
  exact ⟨h, fun doc => by simp [h], fun msg => by simp⟩

/-- Witness for C7: one fetched node, excluded by the exclude pattern. -/
theorem c7_witness :
    convertJob [some [⟨"ss", "US-1", "h", 443, "pw"⟩]] ⟨"", "us", [], false, []⟩ [] ⟨"clash", ""⟩ =
      .error .EmptyResult :=
  (c7_empty_after_filtering [some [⟨"ss", "US-1", "h", 443, "pw"⟩]] ⟨"", "us", [], false, []⟩ []
    ⟨"clash", ""⟩ (by decide) (by decide)).1

/-! ## C8: the url/output pairing check -/

/-- C8: when exactly one of `--url` and `--output` is supplied, `main`
prints the usage error and exits with status 1 before initializing
settings or performing any conversion; when both or neither are
supplied the check passes and no usage error is printed. -/
theorem c8_url_output_pairing (args : Args) :
    ((args.url.isSome != args.output.isSome) = true →
      mainTrace args = [.printErrUsage, .exitCode 1] ∧
      (∀ c, MainEvent.settingsInit c ∉ mainTrace args) ∧
      (∀ u o, MainEvent.directConvert u o ∉ mainTrace args)) ∧
    ((args.url.isSome != args.output.isSome) = false →
      MainEvent.printErrUsage ∉ mainTrace args) := by
  constructor
  · intro h
    refine ⟨by simp [mainTrace, h], ?_, ?_⟩ <;> simp [mainTrace, h]
  · intro h
    cases hg : args.generate <;> cases hu : args.url <;> cases ho : args.output <;>
      simp_all [mainTrace]

/-- Witness for C8: `--url` without `--output` exits with status 1;
neither supplied passes the check. -/
theorem c8_witness :
    mainTrace ⟨none, none, false, none, none, some "http://u", none⟩ =
      [.printErrUsage, .exitCode 1] ∧
    MainEvent.printErrUsage ∉ mainTrace ⟨none, none, false, none, none, none, none⟩ :=
  ⟨((c8_url_output_pairing ⟨none, none, false, none, none, some "http://u", none⟩).1
      (by decide)).1,
   (c8_url_output_pairing ⟨none, none, false, none, none, none, none⟩).2 (by decide)⟩

/-! ## C9: generate mode and init_settings -/

/-- Counterexample for C9: an invocation with `--generate` and `--url`
but no `--output` fails the pairing check and exits before ever entering
generate mode, so not every `--generate` invocation enters generate
mode. -/
theorem c9_counterexample :
    mainTrace ⟨some "cfg.toml", none, true, none, none, some "http://u", none⟩ =
      [.printErrUsage, .exitCode 1] ∧
    MainEvent.enterGenerate none ∉
      mainTrace ⟨some "cfg.toml", none, true, none, none, some "http://u", none⟩ := by
  decide

/-- C9 (amended): every `--generate` invocation that passes the
url/output pairing check enters generate mode and returns before
`init_settings` is ever called, and the `--config` option has no effect
on its behaviour. -/
theorem c9_generate_before_settings (args : Args) (hgen : args.generate = true)
    (hpair : args.url.isSome = args.output.isSome) :
    mainTrace args = [.enterGenerate args.artifact] ∧
    (∀ c, MainEvent.settingsInit c ∉ mainTrace args) ∧
    (∀ c, mainTrace { args with config := c } = mainTrace args) := by
  have hcond : (args.url.isSome != args.output.isSome) = false := by
    simp [hpair]
  refine ⟨by simp [mainTrace, hcond, hgen], ?_, ?_⟩
  · intro c
    simp [mainTrace, hcond, hgen]
  · intro c
    simp [mainTrace, hcond, hgen]

/-- Witness for C9 (amended) at a concrete `--generate` invocation. -/
theorem c9_witness :
    mainTrace ⟨some "cfg.toml", none, true, some "art", none, none, none⟩ =
      [.enterGenerate (some "art")] :=
  (c9_generate_before_settings ⟨some "cfg.toml", none, true, some "art", none, none, none⟩
    (by decide) (by decide)).1

/-! ## C6: idempotence of the post-processor -/

theorem mem_of_mem_dedupAux {x : Node} :
    ∀ {seen} {l : List Node}, x ∈ dedupAux seen l → x ∈ l := by
  intro seen l
  induction l generalizing seen with
  | nil => simp [dedupAux]
  | cons n rest ih =>
    intro h
    by_cases hk : nodeKey n ∈ seen
    · simp only [dedupAux, if_pos hk] at h
      exact List.mem_cons_of_mem _ (ih h)
    · simp only [dedupAux, if_neg hk, List.mem_cons] at h
      rcases h with h | h
      · simp [h]
      · exact List.mem_cons_of_mem _ (ih h)

theorem dedupAux_keys_not_seen {k : String × String × Nat × String} :
    ∀ {seen} (l : List Node), k ∈ seen → k ∉ (dedupAux seen l).map nodeKey := by
  intro seen l
  induction l generalizing seen with
  | nil => simp [dedupAux]
  | cons n rest ih =>
    intro hk
    by_cases hn : nodeKey n ∈ seen
    · simpa only [dedupAux, if_pos hn] using ih hk
    · simp only [dedupAux, if_neg hn, List.map_cons, List.mem_cons, not_or]
      refine ⟨fun he => hn (he ▸ hk), ?_⟩
      exact ih (List.mem_cons_of_mem _ hk)

theorem dedupAux_keys_nodup : ∀ (l : List Node) (seen), ((dedupAux seen l).map nodeKey).Nodup := by
  intro l
  induction l with
  | nil => simp [dedupAux]
  | cons n rest ih =>
    intro seen
    by_cases hn : nodeKey n ∈ seen
    · simpa only [dedupAux, if_pos hn] using ih seen
    · simp only [dedupAux, if_neg hn, List.map_cons, List.nodup_cons]
      exact ⟨dedupAux_keys_not_seen rest (List.mem_cons_self _ _), ih _⟩

theorem dedupAux_eq_self : ∀ (l : List Node) (seen), (∀ x ∈ l, nodeKey x ∉ seen) →
    (l.map nodeKey).Nodup → dedupAux seen l = l := by
  intro l
  induction l with
  | nil => intro seen _ _; rfl
  | cons n rest ih =>
    intro seen hseen hnodup
    have hn : nodeKey n ∉ seen := hseen n (List.mem_cons_self _ _)
    simp only [List.map_cons, List.nodup_cons] at hnodup
    simp only [dedupAux, if_neg hn]
    refine congrArg (n :: ·) (ih _ ?_ hnodup.2)
    intro x hx
    simp only [List.mem_cons, not_or]
    refine ⟨?_, hseen x (List.mem_cons_of_mem _ hx)⟩
    intro he
    exact hnodup.1 (he ▸ List.mem_map_of_mem nodeKey hx)

theorem dedup_idem (l : List Node) : dedup (dedup l) = dedup l := by
  refine dedupAux_eq_self (dedup l) [] (by simp) ?_
  exact dedupAux_keys_nodup l []

theorem mem_of_mem_includeStage {o : PPOptions} {x : Node} {l : List Node}
    (h : x ∈ includeStage o l) : x ∈ l := by
  by_cases hp : o.includePat = ""
  · simpa [includeStage, hp] using h
  · simp only [includeStage, if_neg hp] at h
    exact List.mem_of_mem_filter h

theorem mem_of_mem_excludeStage {o : PPOptions} {x : Node} {l : List Node}
    (h : x ∈ excludeStage o l) : x ∈ l := by
  by_cases hp : o.excludePat = ""
  · simpa [excludeStage, hp] using h
  · simp only [excludeStage, if_neg hp] at h
    exact List.mem_of_mem_filter h

theorem includeStage_idem_on (o : PPOptions) (l : List Node)
    (h : ∀ x ∈ l, o.includePat = "" ∨ matchKw o.includePat x.name = true) :
    includeStage o l = l := by
  by_cases hp : o.includePat = ""
  · simp [includeStage, hp]
  · simp only [includeStage, if_neg hp]
    refine List.filter_eq_self.mpr ?_
    intro x hx
    rcases h x hx with h' | h'
    · exact absurd h' hp
    · exact h'

theorem excludeStage_idem_on (o : PPOptions) (l : List Node)
    (h : ∀ x ∈ l, o.excludePat = "" ∨ (!matchKw o.excludePat x.name) = true) :
    excludeStage o l = l := by
  by_cases hp : o.excludePat = ""
  · simp [excludeStage, hp]
  · simp only [excludeStage, if_neg hp]
    refine List.filter_eq_self.mpr ?_
    intro x hx
    rcases h x hx with h' | h'
    · exact absurd h' hp
    · exact h'

theorem mem_includeStage_matches {o : PPOptions} {x : Node} {l : List Node}
    (hp : ¬o.includePat = "") (h : x ∈ includeStage o l) :
    matchKw o.includePat x.name = true := by
  simp only [includeStage, if_neg hp] at h
  exact (List.mem_filter.mp h).2

theorem mem_excludeStage_matches {o : PPOptions} {x : Node} {l : List Node}
    (hp : ¬o.excludePat = "") (h : x ∈ excludeStage o l) :
    (!matchKw o.excludePat x.name) = true := by
  simp only [excludeStage, if_neg hp] at h
  exact (List.mem_filter.mp h).2

theorem renameStage_nil (o : PPOptions) (l : List Node) (h : o.renameRules = []) :
    renameStage o l = l := by
  have h1 : ∀ n ∈ l, renameNode o.renameRules n = id n := by
    intro n _
    simp [renameNode, h, List.find?]
  simp only [renameStage]
  rw [List.map_congr_left h1, List.map_id]

/-- Counterexample for C6: with emoji tagging on, the table row
`("us", "[US] ")` prepends its symbol again on a second run, so the
post-processor applied to its own output differs from that output. -/
theorem c6_counterexample :
    postProcess ⟨"", "", [], true, [("us", "[US] ")]⟩
        (postProcess ⟨"", "", [], true, [("us", "[US] ")]⟩ [⟨"ss", "US-1", "h", 443, "pw"⟩]) ≠
      postProcess ⟨"", "", [], true, [("us", "[US] ")]⟩ [⟨"ss", "US-1", "h", 443, "pw"⟩] := by
  decide

/-- C6 (amended): the filter and dedup stages are idempotent — for every
options set with no rename rules and emoji tagging off, applying the
post-processor to its own output yields that output unchanged. -/
theorem c6_postprocess_idempotent (o : PPOptions) (ns : List Node)
    (hrename : o.renameRules = []) (hemoji : o.emojiOn = false) :
    postProcess o (postProcess o ns) = postProcess o ns := by
  have hemojiStage : ∀ l, emojiStage o l = l := by
    intro l; simp [emojiStage, hemoji]
  have hrenameStage : ∀ l, renameStage o l = l := fun l => renameStage_nil o l hrename
  simp only [postProcess, hemojiStage, hrenameStage]
  set D := dedup (excludeStage o (includeStage o ns)) with hD
  have hmemB : ∀ x ∈ D, x ∈ excludeStage o (includeStage o ns) := by
    intro x hx
    exact mem_of_mem_dedupAux hx
  have hinc : includeStage o D = D := by
    refine includeStage_idem_on o D ?_
    intro x hx
    by_cases hp : o.includePat = ""
    · exact Or.inl hp
    · exact Or.inr (mem_includeStage_matches hp (mem_of_mem_excludeStage (hmemB x hx)))
  have hexc : excludeStage o D = D := by
    refine excludeStage_idem_on o D ?_
    intro x hx
    by_cases hp : o.excludePat = ""
    · exact Or.inl hp
    · exact Or.inr (mem_excludeStage_matches hp (hmemB x hx))
  rw [hinc, hexc, hD]
  exact dedup_idem _

/-- Witness for C6 (amended) at a concrete filter-only options set with a
duplicate node. -/
theorem c6_witness :
    postProcess ⟨"us", "expire", [], false, []⟩
        (postProcess ⟨"us", "expire", [], false, []⟩
          [⟨"ss", "US-1", "h", 443, "pw"⟩, ⟨"ss", "US-2", "h", 443, "pw"⟩]) =
      postProcess ⟨"us", "expire", [], false, []⟩
        [⟨"ss", "US-1", "h", 443, "pw"⟩, ⟨"ss", "US-2", "h", 443, "pw"⟩] :=
  c6_postprocess_idempotent ⟨"us", "expire", [], false, []⟩
    [⟨"ss", "US-1", "h", 443, "pw"⟩, ⟨"ss", "US-2", "h", 443, "pw"⟩] rfl rfl

/-! ## Query-string lemmas for C2 and C10 -/

theorem hexChar_mem (n : Nat) : hexChar n ∈ hexDigits := by
  unfold hexChar
  rcases Nat.lt_or_ge n hexDigits.length with h | h
  · rw [List.getD_eq_getElem _ _ h]
    exact List.getElem_mem h
  · rw [List.getD_eq_default _ _ h]
    decide

theorem mem_encByte {c : Char} {b : Nat} (h : c ∈ encByte b) : c = '%' ∨ c ∈ hexDigits := by
  simp only [encByte, List.mem_cons, List.not_mem_nil, or_false] at h
  rcases h with h | h | h
  · exact Or.inl h
  · exact Or.inr (h ▸ hexChar_mem _)
  · exact Or.inr (h ▸ hexChar_mem _)

theorem mem_encChar {c x : Char} (h : c ∈ encChar x) :
    isUnreserved c = true ∨ c = '%' ∨ c ∈ hexDigits := by
  unfold encChar at h
  split at h
  · simp only [List.mem_singleton] at h
    subst h
    left
    assumption
  · right
    generalize utf8Bytes x.toNat = bs at h
    induction bs with
    | nil => simp at h
    | cons b rest ih =>
      simp only [List.foldr_cons, List.mem_append] at h
      rcases h with h | h
      · exact mem_encByte h
      · exact ih h

theorem urlencodeL_qsafe : ∀ (l : List Char), ∀ c ∈ urlencodeL l, c ≠ '&' ∧ c ≠ '=' := by
  intro l
  induction l with
  | nil => simp [urlencodeL]
  | cons x xs ih =>
    intro c hc
    simp only [urlencodeL, List.mem_append] at hc
    rcases hc with hc | hc
    · rcases mem_encChar hc with h | h | h
      · constructor <;> rintro rfl <;> simp [isUnreserved] at h
      · subst h
        decide
      · constructor <;> rintro rfl <;> revert h <;> decide
    · exact ih c hc

/-- No character of a percent-encoded value is `&` or `=`: encoded
values can never change the parameter structure of the query string. -/
theorem urlencode_qsafe (s : String) : ∀ c ∈ (urlencode s).data, c ≠ '&' ∧ c ≠ '=' :=
  urlencodeL_qsafe s.data

theorem splitAmp_no_amp : ∀ (a : List Char), '&' ∉ a → splitAmp a = [a] := by
  intro a
  induction a with
  | nil => intro _; rfl
  | cons c cs ih =>
    intro h
    simp only [List.mem_cons, not_or] at h
    have hc : ¬c = '&' := fun he => h.1 he.symm
    simp only [splitAmp, if_neg hc, List.append_eq, ih h.2]

theorem splitAmp_append (a b : List Char) (h : '&' ∉ a) :
    splitAmp (a ++ '&' :: b) = a :: splitAmp b := by
  induction a with
  | nil => simp [splitAmp]
  | cons c cs ih =>
    simp only [List.mem_cons, not_or] at h
    have hc : ¬c = '&' := fun he => h.1 he.symm
    simp only [List.cons_append, splitAmp, if_neg hc, List.append_eq, ih h.2]

theorem splitEq1_append (k v : List Char) (hk : '=' ∉ k) : splitEq1 (k ++ '=' :: v) = (k, v) := by
  induction k with
  | nil => simp [splitEq1]
  | cons c cs ih =>
    simp only [List.mem_cons, not_or] at hk
    have hc : ¬c = '=' := fun he => hk.1 he.symm
    simp only [List.cons_append, splitEq1, if_neg hc, List.append_eq, ih hk.2]

theorem parseQuery_joinParams : ∀ (ps : List (String × String)), ps ≠ [] →
    (∀ p ∈ ps, '&' ∉ p.1.data ∧ '=' ∉ p.1.data ∧ '&' ∉ p.2.data ∧ '=' ∉ p.2.data) →
    parseQuery (String.mk (joinParams ps)) = ps := by
  intro ps
  induction ps with
  | nil => intro h; exact absurd rfl h
  | cons p rest ih =>
    intro _ hgood
    obtain ⟨hk1, hk2, hv1, hv2⟩ := hgood p (List.mem_cons_self p rest)
    cases rest with
    | nil =>
      have hno : '&' ∉ p.1.data ++ '=' :: p.2.data := by
        simp only [List.mem_append, List.mem_cons, not_or]
        exact ⟨hk1, by decide, hv1⟩
      show (splitAmp (p.1.data ++ '=' :: p.2.data)).map _ = [p]
      rw [splitAmp_no_amp _ hno]
      simp [splitEq1_append _ _ hk2]
    | cons q rest' =>
      have hstep : joinParams (p :: q :: rest') =
          (p.1.data ++ '=' :: p.2.data) ++ '&' :: joinParams (q :: rest') := by
        simp [joinParams]
      have hno : '&' ∉ p.1.data ++ '=' :: p.2.data := by
        simp only [List.mem_append, List.mem_cons, not_or]
        exact ⟨hk1, by decide, hv1⟩
      show (splitAmp (joinParams (p :: q :: rest'))).map _ = p :: q :: rest'
      rw [hstep, splitAmp_append _ _ hno]
      simp only [List.map_cons, splitEq1_append _ _ hk2]
      refine congrArg₂ _ rfl ?_
      exact ih (by simp) (fun r hr => hgood r (List.mem_cons_of_mem p hr))

theorem data_target_pref : ("target=" : String).data = ['t', 'a', 'r', 'g', 'e', 't', '='] := rfl

theorem data_url_pref : ("&url=" : String).data = ['&', 'u', 'r', 'l', '='] := rfl

theorem data_ver_pref : ("&ver=" : String).data = ['&', 'v', 'e', 'r', '='] := rfl

theorem data_emoji_pref : ("&emoji=" : String).data = ['&', 'e', 'm', 'o', 'j', 'i', '='] := rfl

theorem data_list_pref : ("&list=" : String).data = ['&', 'l', 'i', 's', 't', '='] := rfl

theorem data_include_pref :
    ("&include=" : String).data = ['&', 'i', 'n', 'c', 'l', 'u', 'd', 'e', '='] := rfl

theorem data_exclude_pref :
    ("&exclude=" : String).data = ['&', 'e', 'x', 'c', 'l', 'u', 'd', 'e', '='] := rfl

theorem data_target_key : ("target" : String).data = ['t', 'a', 'r', 'g', 'e', 't'] := rfl

theorem data_url_key : ("url" : String).data = ['u', 'r', 'l'] := rfl

theorem data_ver_key : ("ver" : String).data = ['v', 'e', 'r'] := rfl

theorem data_emoji_key : ("emoji" : String).data = ['e', 'm', 'o', 'j', 'i'] := rfl

theorem data_list_key : ("list" : String).data = ['l', 'i', 's', 't'] := rfl

theorem data_include_key : ("include" : String).data = ['i', 'n', 'c', 'l', 'u', 'd', 'e'] := rfl

theorem data_exclude_key : ("exclude" : String).data = ['e', 'x', 'c', 'l', 'u', 'd', 'e'] := rfl

/-- The query string built by the driver is the serialization of exactly
the forwarded parameter list. -/
theorem buildQuery_data (s : GenSection) :
    (buildQuery s).data = joinParams (forwardedParams s) := by
  unfold buildQuery forwardedParams optParam
  by_cases h1 : getCurrent s "ver" = "" <;>
    by_cases h2 : getCurrent s "emoji" = "" <;>
      by_cases h3 : getCurrent s "list" = "" <;>
        by_cases h4 : getCurrent s "include" = "" <;>
          by_cases h5 : getCurrent s "exclude" = "" <;>
            simp [h1, h2, h3, h4, h5, joinParams, String.data_append,
              data_target_pref, data_url_pref, data_ver_pref, data_emoji_pref,
              data_list_pref, data_include_pref, data_exclude_pref,
              data_target_key, data_url_key, data_ver_key, data_emoji_key,
              data_list_key, data_include_key, data_exclude_key]

theorem mem_optParam {p : String × String} {raw key val : String}
    (h : p ∈ optParam raw key val) : p = (key, val) := by
  unfold optParam at h
  split at h
  · simp at h
  · simpa using h

theorem not_mem_of_qsafe {l : List Char} (h : ∀ c ∈ l, c ≠ '&' ∧ c ≠ '=') :
    '&' ∉ l ∧ '=' ∉ l :=
  ⟨fun hm => (h _ hm).1 rfl, fun hm => (h _ hm).2 rfl⟩

/-! ## C2: which options the batch driver forwards -/

/-- Counterexample for C2: a batch entry carrying a rename rule list — a
recognized option of the on-demand interface — whose conversion request
contains no `rename` parameter at all. -/
theorem c2_counterexample :
    getCurrent ⟨"sec", true, [("path", "out.yaml"), ("url", "http://x"), ("target", "clash"),
        ("rename", "US@United States")]⟩ "rename" = "US@United States" ∧
    "rename" ∉ (parseQuery (buildQuery ⟨"sec", true,
        [("path", "out.yaml"), ("url", "http://x"), ("target", "clash"),
          ("rename", "US@United States")]⟩)).map Prod.fst := by
  decide

/-- C2 (amended): for every batch entry, the driver forwards exactly
these recognized options into the conversion request: target dialect and
source url (always, percent-encoded), and — when present — the
dialect-version hint, the emoji flag and the node-list mode (verbatim)
and the include- and exclude-regex (percent-encoded).  No other
parameter is forwarded: in particular the rename rule list and the
custom ruleset override never reach the request. -/
theorem c2_forwarded_options (s : GenSection)
    (hver : ∀ c ∈ (getCurrent s "ver").data, c ≠ '&' ∧ c ≠ '=')
    (hemoji : ∀ c ∈ (getCurrent s "emoji").data, c ≠ '&' ∧ c ≠ '=')
    (hlist : ∀ c ∈ (getCurrent s "list").data, c ≠ '&' ∧ c ≠ '=') :
    parseQuery (buildQuery s) = forwardedParams s ∧
    ∀ k ∈ (forwardedParams s).map Prod.fst,
      k ∈ (["target", "url", "ver", "emoji", "list", "include", "exclude"] : List String) := by
  constructor
  · have hq : parseQuery (buildQuery s) =
        parseQuery (String.mk (joinParams (forwardedParams s))) := by
      unfold parseQuery
      rw [buildQuery_data]
    rw [hq]
    refine parseQuery_joinParams _ (by simp [forwardedParams]) ?_
    intro p hp
    simp only [forwardedParams, List.mem_append, List.mem_cons,
      List.not_mem_nil, or_false, or_assoc] at hp
    rcases hp with hp | hp | hp | hp | hp | hp | hp
    · subst hp
      obtain ⟨h1, h2⟩ := not_mem_of_qsafe (urlencode_qsafe (getCurrent s "target"))
      exact ⟨(by decide : '&' ∉ ("target" : String).data),
        (by decide : '=' ∉ ("target" : String).data), h1, h2⟩
    · subst hp
      obtain ⟨h1, h2⟩ := not_mem_of_qsafe (urlencode_qsafe (getCurrent s "url"))
      exact ⟨(by decide : '&' ∉ ("url" : String).data),
        (by decide : '=' ∉ ("url" : String).data), h1, h2⟩
    · obtain rfl := mem_optParam hp
      obtain ⟨h1, h2⟩ := not_mem_of_qsafe hver
      exact ⟨(by decide : '&' ∉ ("ver" : String).data),
        (by decide : '=' ∉ ("ver" : String).data), h1, h2⟩
    · obtain rfl := mem_optParam hp
      obtain ⟨h1, h2⟩ := not_mem_of_qsafe hemoji
      exact ⟨(by decide : '&' ∉ ("emoji" : String).data),
        (by decide : '=' ∉ ("emoji" : String).data), h1, h2⟩
    · obtain rfl := mem_optParam hp
      obtain ⟨h1, h2⟩ := not_mem_of_qsafe hlist
      exact ⟨(by decide : '&' ∉ ("list" : String).data),
        (by decide : '=' ∉ ("list" : String).data), h1, h2⟩
    · obtain rfl := mem_optParam hp
      obtain ⟨h1, h2⟩ := not_mem_of_qsafe (urlencode_qsafe (getCurrent s "include"))
      exact ⟨(by decide : '&' ∉ ("include" : String).data),
        (by decide : '=' ∉ ("include" : String).data), h1, h2⟩
    · obtain rfl := mem_optParam hp
      obtain ⟨h1, h2⟩ := not_mem_of_qsafe (urlencode_qsafe (getCurrent s "exclude"))
      exact ⟨(by decide : '&' ∉ ("exclude" : String).data),
        (by decide : '=' ∉ ("exclude" : String).data), h1, h2⟩
  · intro k hk
    simp only [forwardedParams, List.map_append, List.mem_append,
      List.map_cons, List.map_nil, List.mem_cons, List.not_mem_nil, or_false, or_assoc] at hk
    rcases hk with hk | hk | hk | hk | hk | hk | hk
    · subst hk
      exact (by decide : ("target" : String) ∈ ["target", "url", "ver", "emoji", "list", "include", "exclude"])
    · subst hk
      exact (by decide : ("url" : String) ∈ ["target", "url", "ver", "emoji", "list", "include", "exclude"])
    · obtain ⟨p, hp, rfl⟩ := List.mem_map.mp hk
      obtain rfl := mem_optParam hp
      exact (by decide : ("ver" : String) ∈ ["target", "url", "ver", "emoji", "list", "include", "exclude"])
    · obtain ⟨p, hp, rfl⟩ := List.mem_map.mp hk
      obtain rfl := mem_optParam hp
      exact (by decide : ("emoji" : String) ∈ ["target", "url", "ver", "emoji", "list", "include", "exclude"])
    · obtain ⟨p, hp, rfl⟩ := List.mem_map.mp hk
      obtain rfl := mem_optParam hp
      exact (by decide : ("list" : String) ∈ ["target", "url", "ver", "emoji", "list", "include", "exclude"])
    · obtain ⟨p, hp, rfl⟩ := List.mem_map.mp hk
      obtain rfl := mem_optParam hp
      exact (by decide : ("include" : String) ∈ ["target", "url", "ver", "emoji", "list", "include", "exclude"])
    · obtain ⟨p, hp, rfl⟩ := List.mem_map.mp hk
      obtain rfl := mem_optParam hp
      exact (by decide : ("exclude" : String) ∈ ["target", "url", "ver", "emoji", "list", "include", "exclude"])

/-- Witness for C2 (amended) at a concrete entry setting every forwarded
option. -/
theorem c2_witness :
    parseQuery (buildQuery ⟨"sec", true,
        [("path", "p"), ("url", "http://u"), ("target", "clash"), ("ver", "4"),
          ("emoji", "true"), ("list", "true"), ("include", "US|HK"), ("exclude", "expire")]⟩) =
      forwardedParams ⟨"sec", true,
        [("path", "p"), ("url", "http://u"), ("target", "clash"), ("ver", "4"),
          ("emoji", "true"), ("list", "true"), ("include", "US|HK"), ("exclude", "expire")]⟩ :=
  (c2_forwarded_options ⟨"sec", true,
      [("path", "p"), ("url", "http://u"), ("target", "clash"), ("ver", "4"),
        ("emoji", "true"), ("list", "true"), ("include", "US|HK"), ("exclude", "expire")]⟩
    (by decide) (by decide) (by decide)).1

/-! ## C10: encoded and verbatim query parameters -/

/-- C10: `target`, `url`, `include` and `exclude` are percent-encoded
(and an encoded value can never contain `&` or `=`), while `ver`,
`emoji` and `list` are appended verbatim — so a section value such as
`ver=1&list=true` injects an extra `list` parameter into the query's
parameter structure, while the same characters in `include` stay inside
a single encoded parameter. -/
theorem c10_unencoded_options_alter_structure :
    (∀ s : String, ∀ c ∈ (urlencode s).data, c ≠ '&' ∧ c ≠ '=') ∧
    getCurrent ⟨"sec", true, [("path", "p"), ("url", "u"), ("target", "clash"),
        ("ver", "1&list=true"), ("include", "a&b")]⟩ "ver" = "1&list=true" ∧
    getCurrent ⟨"sec", true, [("path", "p"), ("url", "u"), ("target", "clash"),
        ("ver", "1&list=true"), ("include", "a&b")]⟩ "list" = "" ∧
    parseQuery (buildQuery ⟨"sec", true, [("path", "p"), ("url", "u"), ("target", "clash"),
        ("ver", "1&list=true"), ("include", "a&b")]⟩) =
      [("target", "clash"), ("url", "u"), ("ver", "1"), ("list", "true"),
        ("include", "a%26b")] :=
  ⟨fun s => urlencode_qsafe s, by decide, by decide, by decide⟩

/-- Witness for C10 instantiating the encoding-safety clause at the
value `a&b`, whose encoding `a%26b` contains `%` but no `&`. -/
theorem c10_witness : ('%' : Char) ≠ '&' ∧ ('%' : Char) ≠ '=' :=
  c10_unencoded_options_alter_structure.1 "a&b" '%' (by decide)

end Subconverter
